import Mathlib

/-!
Shallow embedding of the WhatsApp group bot
(`whatsappBOT_Read_from_whasapp_package.py`): the data model, the time and
row parsers, the unread scanner with its scroll-back loop, the handler
registry and dispatcher, and the poll loop, together with theorems about
their behaviour.

Conventions of the embedding:
* Python exceptions are modelled as `Option`/`Except` results, or as a
  boolean "no exception escaped" flag in the trace-based poll-loop model.
* The chat surface is modelled as the full ordered list of message rows of
  the open conversation (oldest first) together with a count of rows
  currently lazily loaded from the bottom; one "scroll to top" action loads
  one more row, and the end-to-end-encryption notice (the top sentinel) is
  visible exactly when the whole history is loaded.
* `datetime.strptime` is modelled for the eleven format strings the bot
  uses, with the digit-group alternations and backtracking of CPython's
  `_strptime` regexes, and `datetime.strftime "%Y-%m-%d %H:%M:%S"` as
  zero-padded decimal rendering.
-/

set_option maxHeartbeats 1000000

namespace WABot

/-! ## Data model -/

/-- The `GroupMessage` dataclass. -/
structure GroupMessage where
  id : String
  group : String
  sender : String
  text : String
  time : String
deriving DecidableEq

/-- The `GroupMessageHandler` dataclass. The Python callback object is
modelled by an opaque numeric identity; dataclass equality compares the
callback by object identity together with the group and sender filter. -/
structure GroupMessageHandler where
  callback : Nat
  group : String
  senders : Option (List String) := none
deriving DecidableEq

/-- A rendered message row of the chat surface.  `dataId` is the `data-id`
DOM attribute (present on every row the selectors return), `prePlainText`
the `data-pre-plain-text` attribute of the text container (absent when the
container is missing), `selectableText` the visible text of the
`selectable-text` element (absent when that element is missing). -/
structure Row where
  dataId : String
  prePlainText : Option String := none
  selectableText : Option String := none
deriving DecidableEq

/-! ## Time Parser (`_format_message_time`)

`datetime.strptime` compiles a format string to a regex; we model each
format as a list of directives.  Each directive matcher returns the list of
its regex alternatives that match at the head of the input, in the order the
regex engine tries them, each as a parsed value paired with the remaining
input; the format matcher backtracks through those alternatives. -/

/-- One directive of a strptime format string: a literal character, a
whitespace run, or one of the `%` directives used by the bot's formats. -/
inductive Dir where
  | lit (c : Char)
  | ws
  | dY
  | dm
  | dd
  | dH
  | dI
  | dM
  | dS
  | dp
  | df
deriving DecidableEq

/-- Numeric value of a decimal digit character. -/
def digitVal (c : Char) : Nat := c.toNat - 48

/-- Python `\s`: the six ASCII whitespace characters. -/
def isPyWs (c : Char) : Bool :=
  c == ' ' || c == '\t' || c == '\n' || c == '\r' || c == '\x0b' || c == '\x0c'

/-- `%Y` : `\d\d\d\d`. -/
def matchY : List Char → List (Nat × List Char)
  | c1 :: c2 :: c3 :: c4 :: rest =>
    if c1.isDigit && c2.isDigit && c3.isDigit && c4.isDigit then
      [(((digitVal c1 * 10 + digitVal c2) * 10 + digitVal c3) * 10 + digitVal c4, rest)]
    else []
  | _ => []

/-- `%m` and `%I` : `1[0-2]|0[1-9]|[1-9]`. -/
def match1to12 : List Char → List (Nat × List Char)
  | [] => []
  | [c1] => if '1' ≤ c1 && c1 ≤ '9' then [(digitVal c1, [])] else []
  | c1 :: c2 :: rest =>
    (if c1 == '1' && ('0' ≤ c2 && c2 ≤ '2') then [(10 + digitVal c2, rest)] else []) ++
    (if c1 == '0' && ('1' ≤ c2 && c2 ≤ '9') then [(digitVal c2, rest)] else []) ++
    (if '1' ≤ c1 && c1 ≤ '9' then [(digitVal c1, c2 :: rest)] else [])

/-- `%d` : `3[01]|[12]\d|0[1-9]|[1-9]`. -/
def matchDay : List Char → List (Nat × List Char)
  | [] => []
  | [c1] => if '1' ≤ c1 && c1 ≤ '9' then [(digitVal c1, [])] else []
  | c1 :: c2 :: rest =>
    (if c1 == '3' && ('0' ≤ c2 && c2 ≤ '1') then [(30 + digitVal c2, rest)] else []) ++
    (if ('1' ≤ c1 && c1 ≤ '2') && c2.isDigit then
      [(digitVal c1 * 10 + digitVal c2, rest)] else []) ++
    (if c1 == '0' && ('1' ≤ c2 && c2 ≤ '9') then [(digitVal c2, rest)] else []) ++
    (if '1' ≤ c1 && c1 ≤ '9' then [(digitVal c1, c2 :: rest)] else [])

/-- `%H` : `2[0-3]|[0-1]\d|\d`. -/
def matchHour : List Char → List (Nat × List Char)
  | [] => []
  | [c1] => if c1.isDigit then [(digitVal c1, [])] else []
  | c1 :: c2 :: rest =>
    (if c1 == '2' && ('0' ≤ c2 && c2 ≤ '3') then [(20 + digitVal c2, rest)] else []) ++
    (if ('0' ≤ c1 && c1 ≤ '1') && c2.isDigit then
      [(digitVal c1 * 10 + digitVal c2, rest)] else []) ++
    (if c1.isDigit then [(digitVal c1, c2 :: rest)] else [])

/-- `%M` : `[0-5]\d|\d`. -/
def matchMin : List Char → List (Nat × List Char)
  | [] => []
  | [c1] => if c1.isDigit then [(digitVal c1, [])] else []
  | c1 :: c2 :: rest =>
    (if ('0' ≤ c1 && c1 ≤ '5') && c2.isDigit then
      [(digitVal c1 * 10 + digitVal c2, rest)] else []) ++
    (if c1.isDigit then [(digitVal c1, c2 :: rest)] else [])

/-- `%S` : `6[0-1]|[0-5]\d|\d`. -/
def matchSec : List Char → List (Nat × List Char)
  | [] => []
  | [c1] => if c1.isDigit then [(digitVal c1, [])] else []
  | c1 :: c2 :: rest =>
    (if c1 == '6' && ('0' ≤ c2 && c2 ≤ '1') then [(60 + digitVal c2, rest)] else []) ++
    (if ('0' ≤ c1 && c1 ≤ '5') && c2.isDigit then
      [(digitVal c1 * 10 + digitVal c2, rest)] else []) ++
    (if c1.isDigit then [(digitVal c1, c2 :: rest)] else [])

/-- `%p` : `am|pm`, case-insensitive; value 0 for AM, 1 for PM. -/
def matchAmPm : List Char → List (Nat × List Char)
  | c1 :: c2 :: rest =>
    (if (c1 == 'a' || c1 == 'A') && (c2 == 'm' || c2 == 'M') then [(0, rest)] else []) ++
    (if (c1 == 'p' || c1 == 'P') && (c2 == 'm' || c2 == 'M') then [(1, rest)] else [])
  | _ => []

/-- Value of a `%f` digit group: right-padded with zeros to six digits. -/
def microVal (ds : List Char) : Nat :=
  ds.foldl (fun a c => a * 10 + digitVal c) 0 * 10 ^ (6 - ds.length)

/-- `%f` : `[0-9]{1,6}`, greedy (longest digit prefix first). -/
def matchMicro (s : List Char) : List (Nat × List Char) :=
  let n := min (s.takeWhile Char.isDigit).length 6
  (List.range n).map (fun i => (microVal (s.take (n - i)), s.drop (n - i)))

/-- A whitespace character of the format matches `\s+`, greedy. -/
def matchWs (s : List Char) : List (Nat × List Char) :=
  let n := (s.takeWhile isPyWs).length
  (List.range n).map (fun i => (0, s.drop (n - i)))

/-- A literal format character matches itself. -/
def matchLit (c : Char) : List Char → List (Nat × List Char)
  | c1 :: rest => if c1 == c then [(0, rest)] else []
  | [] => []

/-- Alternatives of one directive at the head of the input. -/
def matchDir : Dir → List Char → List (Nat × List Char)
  | .lit c, s => matchLit c s
  | .ws, s => matchWs s
  | .dY, s => matchY s
  | .dm, s => match1to12 s
  | .dI, s => match1to12 s
  | .dd, s => matchDay s
  | .dH, s => matchHour s
  | .dM, s => matchMin s
  | .dS, s => matchSec s
  | .dp, s => matchAmPm s
  | .df, s => matchMicro s

/-- The fields `_strptime` extracts, with its default values
(1900-01-01 00:00:00); `hour12`/`isPM` hold a pending `%I`/`%p` group. -/
structure TimeFields where
  year : Nat := 1900
  month : Nat := 1
  day : Nat := 1
  hour : Nat := 0
  minute : Nat := 0
  second : Nat := 0
  hour12 : Option Nat := none
  isPM : Option Bool := none
  micro : Nat := 0
deriving DecidableEq

/-- Record a parsed directive value into the field set. -/
def applyDir (d : Dir) (v : Nat) (f : TimeFields) : TimeFields :=
  match d with
  | .dY => { f with year := v }
  | .dm => { f with month := v }
  | .dd => { f with day := v }
  | .dH => { f with hour := v }
  | .dI => { f with hour12 := some v }
  | .dM => { f with minute := v }
  | .dS => { f with second := v }
  | .dp => { f with isPM := some (v == 1) }
  | .df => { f with micro := v }
  | .lit _ => f
  | .ws => f

/-- Run a whole format against the input with backtracking; the entire
input must be consumed (strptime rejects unconverted data). -/
def runParse : List Dir → List Char → TimeFields → Option TimeFields
  | [], s, f => if s.isEmpty then some f else none
  | d :: ds, s, f =>
    (matchDir d s).findSome? (fun vr => runParse ds vr.2 (applyDir d vr.1 f))

/-- `_strptime`'s 12-hour-clock adjustment: `%I` with `%p` PM maps to
hours 12..23, `%I` alone or with AM maps 12 to 0. -/
def mergedHour (f : TimeFields) : Nat :=
  match f.hour12 with
  | none => f.hour
  | some h =>
    match f.isPM with
    | some true => if h == 12 then 12 else h + 12
    | _ => if h == 12 then 0 else h

/-- Gregorian leap year, as in Python's `calendar`/`datetime`. -/
def isLeapYear (y : Nat) : Bool := (y % 4 == 0 && y % 100 != 0) || y % 400 == 0

/-- Days in a month, as validated by the `datetime` constructor. -/
def daysInMonth (y m : Nat) : Nat :=
  if m == 2 then (if isLeapYear y then 29 else 28)
  else if m == 4 || m == 6 || m == 9 || m == 11 then 30
  else 31

/-- The range checks of the `datetime` constructor (`MINYEAR = 1`,
`MAXYEAR = 9999`; seconds above 59 are rejected even though the `%S`
regex admits 60 and 61). -/
def validDateTime (y mo da h mi s : Nat) : Bool :=
  1 ≤ y && y ≤ 9999 && 1 ≤ mo && mo ≤ 12 && 1 ≤ da && da ≤ daysInMonth y mo &&
    h ≤ 23 && mi ≤ 59 && s ≤ 59

/-- Two-digit zero-padded decimal rendering (`%m`, `%d`, `%H`, `%M`, `%S`). -/
def pad2 (n : Nat) : List Char := [Nat.digitChar (n / 10 % 10), Nat.digitChar (n % 10)]

/-- Four-digit zero-padded decimal rendering. -/
def pad4 (n : Nat) : List Char :=
  [Nat.digitChar (n / 1000 % 10), Nat.digitChar (n / 100 % 10),
    Nat.digitChar (n / 10 % 10), Nat.digitChar (n % 10)]

/-- Digit accumulator for `natDigits`, with enough fuel to consume every
decimal digit. -/
def natDigitsAux : Nat → Nat → List Char → List Char
  | 0, _, acc => acc
  | fuel + 1, n, acc =>
    if n < 10 then Nat.digitChar n :: acc
    else natDigitsAux fuel (n / 10) (Nat.digitChar (n % 10) :: acc)

/-- Decimal digits of a number without padding: CPython's `strftime "%Y"`
(via the platform strftime) renders the year unpadded, so years below
1000 produce fewer than four digits. -/
def natDigits (n : Nat) : List Char := natDigitsAux (n + 1) n []

/-- `strftime "%Y-%m-%d %H:%M:%S"` on a validated datetime. -/
def renderDateTime (y mo da h mi s : Nat) : List Char :=
  natDigits y ++ '-' :: (pad2 mo ++ '-' :: (pad2 da ++ ' ' ::
    (pad2 h ++ ':' :: (pad2 mi ++ ':' :: pad2 s))))

/-- One attempt of the loop body of `_format_message_time`:
`datetime.strptime` with one format followed by `strftime`, `none` when
either raises `ValueError`. -/
def tryFormat (fmt : List Dir) (s : List Char) : Option (List Char) :=
  match runParse fmt s {} with
  | none => none
  | some f =>
    let h := mergedHour f
    if validDateTime f.year f.month f.day h f.minute f.second then
      some (renderDateTime f.year f.month f.day h f.minute f.second)
    else none

/-- Format string `"%I:%M %p, %m/%d/%Y"`. -/
def timeFormat1 : List Dir :=
  [.dI, .lit ':', .dM, .ws, .dp, .lit ',', .ws, .dm, .lit '/', .dd, .lit '/', .dY]

/-- Format string `"%H:%M:%S, %m/%d/%Y"`. -/
def timeFormat2 : List Dir :=
  [.dH, .lit ':', .dM, .lit ':', .dS, .lit ',', .ws, .dm, .lit '/', .dd, .lit '/', .dY]

/-- Format string `"%H:%M, %m/%d/%Y"`. -/
def timeFormat3 : List Dir :=
  [.dH, .lit ':', .dM, .lit ',', .ws, .dm, .lit '/', .dd, .lit '/', .dY]

/-- Format string `"%I:%M:%S %p, %m/%d/%Y"`. -/
def timeFormat4 : List Dir :=
  [.dI, .lit ':', .dM, .lit ':', .dS, .ws, .dp, .lit ',', .ws, .dm, .lit '/', .dd, .lit '/', .dY]

/-- Format string `"%I:%M %p, %d/%m/%Y"`. -/
def timeFormat5 : List Dir :=
  [.dI, .lit ':', .dM, .ws, .dp, .lit ',', .ws, .dd, .lit '/', .dm, .lit '/', .dY]

/-- Format string `"%H:%M:%S, %d/%m/%Y"`. -/
def timeFormat6 : List Dir :=
  [.dH, .lit ':', .dM, .lit ':', .dS, .lit ',', .ws, .dd, .lit '/', .dm, .lit '/', .dY]

/-- Format string `"%H:%M, %d/%m/%Y"`. -/
def timeFormat7 : List Dir :=
  [.dH, .lit ':', .dM, .lit ',', .ws, .dd, .lit '/', .dm, .lit '/', .dY]

/-- Format string `"%I:%M:%S %p, %d/%m/%Y"`. -/
def timeFormat8 : List Dir :=
  [.dI, .lit ':', .dM, .lit ':', .dS, .ws, .dp, .lit ',', .ws, .dd, .lit '/', .dm, .lit '/', .dY]

/-- Format string `"%Y-%m-%d %H:%M:%S"`. -/
def timeFormat9 : List Dir :=
  [.dY, .lit '-', .dm, .lit '-', .dd, .ws, .dH, .lit ':', .dM, .lit ':', .dS]

/-- Format string `"%Y-%m-%d %H:%M:%S.%f"`. -/
def timeFormat10 : List Dir :=
  [.dY, .lit '-', .dm, .lit '-', .dd, .ws, .dH, .lit ':', .dM, .lit ':', .dS, .lit '.', .df]

/-- Format string `"%Y-%m-%d %I:%M:%S %p"`. -/
def timeFormat11 : List Dir :=
  [.dY, .lit '-', .dm, .lit '-', .dd, .ws, .dI, .lit ':', .dM, .lit ':', .dS, .ws, .dp]

/-- The `time_formats` list of `_format_message_time`, in source order. -/
def timeFormats : List (List Dir) :=
  [timeFormat1, timeFormat2, timeFormat3, timeFormat4, timeFormat5, timeFormat6,
    timeFormat7, timeFormat8, timeFormat9, timeFormat10, timeFormat11]

/-- The `for format_str in time_formats` loop: first successful format wins. -/
def formatFirst : List (List Dir) → List Char → Option (List Char)
  | [], _ => none
  | f :: fs, s =>
    match tryFormat f s with
    | some v => some v
    | none => formatFirst fs s

/-- `_format_message_time`: `none` models the final `raise ValueError`. -/
def format_message_time (t : String) : Option String :=
  (formatFirst timeFormats t.data).map String.mk

/-! ## Row Parser (`_get_message_from_row`)

The two anchored patterns `_DATA_ID_PATTERN` and `_PRE_PLAIN_TEXT_PATTERN`
contain greedy `.+` and `\d+` groups; we model the engine's backtracking by
trying every nonempty split, longest prefix first.  `.` does not match a
newline. -/

/-- All splits of a string into a nonempty prefix and the remaining suffix,
longest prefix first — the order a greedy `.+` tries them. -/
def splitsDesc (s : List Char) : List (List Char × List Char) :=
  (List.range s.length).map (fun k => (s.take (s.length - k), s.drop (s.length - k)))

/-- Whether a character is matched by `.` (anything but a newline). -/
def isDot (c : Char) : Bool := c != '\n'

/-- The `(?P<sender>\d+)@.+$` tail of `_DATA_ID_PATTERN`. -/
def dataIdDigits (s : List Char) : Option (List Char) :=
  (splitsDesc s).findSome? fun dr =>
    if dr.1.all Char.isDigit then
      match dr.2 with
      | '@' :: r => if r ≠ [] && r.all isDot then some dr.1 else none
      | _ => none
    else none

/-- The `.+_(?P<sender>\d+)@.+$` tail of `_DATA_ID_PATTERN`. -/
def dataIdTail (s : List Char) : Option (List Char) :=
  (splitsDesc s).findSome? fun br =>
    if br.1.all isDot then
      match br.2 with
      | '_' :: r => dataIdDigits r
      | _ => none
    else none

/-- `_DATA_ID_PATTERN.search`, `^.+@.+_(?P<sender>\d+)@.+$`: the digits of
the `sender` group when the pattern matches. -/
def dataIdSender (s : List Char) : Option (List Char) :=
  (splitsDesc s).findSome? fun ar =>
    if ar.1.all isDot then
      match ar.2 with
      | '@' :: r => dataIdTail r
      | _ => none
    else none

/-- `_PRE_PLAIN_TEXT_PATTERN.search`, `^\[(?P<time>.+)\].+$`: the `time`
group when the pattern matches. -/
def prePlainTime (s : List Char) : Option (List Char) :=
  match s with
  | '[' :: r1 =>
    (splitsDesc r1).findSome? fun tr =>
      if tr.1.all isDot then
        match tr.2 with
        | ']' :: r2 => if r2 ≠ [] && r2.all isDot then some tr.1 else none
        | _ => none
      else none
  | _ => none

/-- `_get_message_from_row`: `none` models any of its raised exceptions
(identifier pattern mismatch, missing text container, pre-plain-text
pattern mismatch, time-format failure, missing text element, and the
explicit raise on empty text). -/
def get_message_from_row (currentGroup : String) (row : Row) : Option GroupMessage :=
  match dataIdSender row.dataId.data with
  | none => none
  | some senderDigits =>
    match row.prePlainText with
    | none => none
    | some ppt =>
      match prePlainTime ppt.data with
      | none => none
      | some rawTime =>
        match format_message_time (String.mk rawTime) with
        | none => none
        | some formattedTime =>
          match row.selectableText with
          | none => none
          | some text =>
            if text = "" then none
            else some { id := row.dataId, group := currentGroup,
                        sender := "+" ++ String.mk senderDigits,
                        text := text, time := formattedTime }

/-- The row loop of `_get_unread_messages`: parse each row, skipping (with
a logged error) every row whose parse raises. -/
def parse_rows (group : String) : List Row → List GroupMessage
  | [] => []
  | r :: rest =>
    match get_message_from_row group r with
    | none => parse_rows group rest
    | some m => m :: parse_rows group rest

/-! ## Unread Scanner

The chat surface is the full row list `all` (display order, oldest first)
plus the number of rows currently loaded from the bottom; a scroll-to-top
action loads one more row, and the encryption notice is visible exactly
when everything is loaded. -/

/-- The rows currently present in the DOM. -/
def loadedRows (all : List Row) (loaded : Nat) : List Row :=
  all.drop (all.length - loaded)

/-- Truthiness of `last_read_data_id and driver.find_elements(data-id=…)`. -/
def widFound (rows : List Row) (wid : Option String) : Bool :=
  match wid with
  | none => false
  | some w => rows.any (fun r => r.dataId == w)

/-- Whether the `Messages are end-to-end encrypted` notice is visible. -/
def topReached (all : List Row) (loaded : Nat) : Bool := all.length ≤ loaded

/-- The `while True` of `_scroll_until_last_read_message_found`, run with
explicit fuel: `none` when the fuel is exhausted before the loop exits,
otherwise the returned data id (if the watermark row was found) together
with the final number of loaded rows. -/
def scrollLoop (all : List Row) (wid : Option String) :
    Nat → Nat → Option (Option String × Nat)
  | _, 0 => none
  | loaded, fuel + 1 =>
    if widFound (loadedRows all loaded) wid then some (wid, loaded)
    else if topReached all loaded then some (none, loaded)
    else scrollLoop all wid (loaded + 1) fuel

/-- Incoming (not self-sent) rows carry a `data-id` starting `false_`
(the `[data-id^='false_']` attribute selector). -/
def isIncomingRow (r : Row) : Bool := "false_".data.isPrefixOf r.dataId.data

/-- Rows strictly after the first row whose `data-id` equals `wid`
(the `[role='row']:has(> [data-id='…']) ~ [role='row']` selector). -/
def rowsAfter : List Row → String → List Row
  | [], _ => []
  | r :: rest, wid => if r.dataId = wid then rest else rowsAfter rest wid

/-- `_get_unread_message_rows_from_current_group`: scroll until the
watermark row is loaded (or the top is reached), then select every
incoming row after the watermark row — or every incoming row when no
watermark row was found. -/
def get_unread_message_rows (all : List Row) (lastRead : Option String)
    (loaded0 fuel : Nat) : Option (List Row) :=
  match scrollLoop all lastRead loaded0 fuel with
  | none => none
  | some (res, loadedF) =>
    let dom := loadedRows all loadedF
    some (match res with
      | some wid => (rowsAfter dom wid).filter isIncomingRow
      | none => dom.filter isIncomingRow)

/-- `_get_unread_messages` after the group chat has been opened: the
selected unread rows, each parsed, unparseable rows skipped. -/
def get_unread_messages (group : String) (all : List Row) (lastRead : Option String)
    (loaded0 fuel : Nat) : Option (List GroupMessage) :=
  (get_unread_message_rows all lastRead loaded0 fuel).map (parse_rows group)

/-! ## Handler Registry & Dispatcher and the Poll Loop

The poll loop is modelled per iteration as a trace of observable events.
The boolean paired with a trace is `true` when the Python control flow
completes normally and `false` when an uncaught exception escapes
`run_loop` (terminating the process).  Callback and watermark-write
outcomes are oracles: `cbOk h m` tells whether handler `h`'s callback
returns normally on `m`, `setOk i` whether `_set_last_read_message_id i`
succeeds. -/

/-- `add_handler`: append the handler unless an equal one is registered. -/
def add_handler (handlers : List GroupMessageHandler) (h : GroupMessageHandler) :
    List GroupMessageHandler :=
  if h ∈ handlers then handlers else handlers ++ [h]

/-- The matching condition of `_call_matching_handlers`:
`message.group == handler.group and (handler.senders is None or
message.sender in handler.senders)`. -/
def handlerMatches (h : GroupMessageHandler) (m : GroupMessage) : Bool :=
  m.group == h.group &&
    match h.senders with
    | none => true
    | some ss => ss.contains m.sender

/-- Observable events of one poll iteration. -/
inductive BotEvent where
  | invoke (h : GroupMessageHandler) (msgId : String)
  | commit (msgId : String)
  | scanError (group : String)
deriving DecidableEq

/-- `_call_matching_handlers`: call the callback of every registration
matching the message, in registration order.  A callback that raises is
still invoked, but stops the loop and propagates (flag `false`). -/
def call_matching_handlers (handlers : List GroupMessageHandler)
    (cbOk : GroupMessageHandler → GroupMessage → Bool) (m : GroupMessage) :
    List BotEvent × Bool :=
  match handlers with
  | [] => ([], true)
  | h :: rest =>
    if handlerMatches h m then
      if cbOk h m then
        let r := call_matching_handlers rest cbOk m
        (.invoke h m.id :: r.1, r.2)
      else ([.invoke h m.id], false)
    else call_matching_handlers rest cbOk m

/-- The `for message in messages` body of `run_loop`: dispatch, then
commit the message id to the watermark store.  Neither step is inside a
`try`, so a callback exception or a failing write propagates. -/
def processMessages (handlers : List GroupMessageHandler)
    (cbOk : GroupMessageHandler → GroupMessage → Bool) (setOk : String → Bool) :
    List GroupMessage → List BotEvent × Bool
  | [] => ([], true)
  | m :: rest =>
    let d := call_matching_handlers handlers cbOk m
    if d.2 then
      if setOk m.id then
        let r := processMessages handlers cbOk setOk rest
        (d.1 ++ .commit m.id :: r.1, r.2)
      else (d.1, false)
    else (d.1, false)

/-- One poll iteration of `run_loop` over the groups to watch: the scan of
each group is inside `try/except` (a failure is logged and the loop moves
to the next group), but the dispatch-and-commit loop is not. -/
def runIteration (handlers : List GroupMessageHandler)
    (scan : String → Except Unit (List GroupMessage))
    (cbOk : GroupMessageHandler → GroupMessage → Bool) (setOk : String → Bool) :
    List String → List BotEvent × Bool
  | [] => ([], true)
  | g :: gs =>
    match scan g with
    | .error _ =>
      let r := runIteration handlers scan cbOk setOk gs
      (.scanError g :: r.1, r.2)
    | .ok msgs =>
      let p := processMessages handlers cbOk setOk msgs
      if p.2 then
        let r := runIteration handlers scan cbOk setOk gs
        (p.1 ++ r.1, r.2)
      else (p.1, false)

/-! ## Concrete instances used in the claims and witnesses -/

/-- A concrete incoming row (message M1). -/
def rowM1 : Row :=
  { dataId := "false_12036@g.us_M1AA_2348011@c.us",
    prePlainText := some "[9:49 AM, 4/28/2023] Ada: ", selectableText := some "m1" }

/-- A concrete incoming row (message M2). -/
def rowM2 : Row :=
  { dataId := "false_12036@g.us_M2AA_2348012@c.us",
    prePlainText := some "[9:50 AM, 4/28/2023] Ben: ", selectableText := some "m2" }

/-- A concrete incoming row (message M3, the watermark row). -/
def rowM3 : Row :=
  { dataId := "false_12036@g.us_M3AA_2348013@c.us",
    prePlainText := some "[9:51 AM, 4/28/2023] Ada: ", selectableText := some "m3" }

/-- A concrete incoming row (message M4). -/
def rowM4 : Row :=
  { dataId := "false_12036@g.us_M4AA_2348011@c.us",
    prePlainText := some "[9:52 AM, 4/28/2023] Ada: ", selectableText := some "m4" }

/-- A concrete incoming row (message M5). -/
def rowM5 : Row :=
  { dataId := "false_12036@g.us_M5AA_2348012@c.us",
    prePlainText := some "[9:53 AM, 4/28/2023] Ben: ", selectableText := some "m5" }

/-- The five-row conversation of the unread-scan example. -/
def rowsM : List Row := [rowM1, rowM2, rowM3, rowM4, rowM5]

/-- A row whose visible text renders empty (an emoji-only body). -/
def rowEmpty : Row :=
  { dataId := "false_12036@g.us_E1AA_2348014@c.us",
    prePlainText := some "[9:54 AM, 4/28/2023] Ada: ", selectableText := some "" }

/-- A concrete message in group `G` from sender `+15550001`. -/
def msgA : GroupMessage :=
  { id := "false_12036@g.us_A1_15550001@c.us", group := "G", sender := "+15550001",
    text := "hello", time := "2023-04-28 09:49:00" }

/-- A second concrete message in group `G`, used for the second group of
the fault-isolation counterexample. -/
def msgB : GroupMessage :=
  { id := "false_12036@g.us_B1_15550002@c.us", group := "G", sender := "+15550002",
    text := "world", time := "2023-04-28 09:50:00" }

/-- A handler on group `G` matching all senders. -/
def handlerAll : GroupMessageHandler := { callback := 0, group := "G" }

/-- A second handler on group `G`, filtered to sender `+15550001`. -/
def handlerFiltered : GroupMessageHandler :=
  { callback := 1, group := "G", senders := some ["+15550001"] }

/-! ## Theorems -/

/-- When no invoked callback raises, the dispatch trace lists exactly the
matching registrations, in registration order. -/
theorem call_trace_of_ok (H : List GroupMessageHandler)
    (cbOk : GroupMessageHandler → GroupMessage → Bool) (m : GroupMessage)
    (hok : (call_matching_handlers H cbOk m).2 = true) :
    (call_matching_handlers H cbOk m).1
      = (H.filter (fun h => handlerMatches h m)).map (fun h => BotEvent.invoke h m.id) := by
  induction H with
  | nil => rfl
  | cons h rest ih =>
    by_cases hm : handlerMatches h m = true
    · by_cases hc : cbOk h m = true
      · have hok2 : (call_matching_handlers rest cbOk m).2 = true := by
          simpa [call_matching_handlers, hm, hc] using hok
        simp [call_matching_handlers, hm, hc, List.filter_cons, ih hok2]
      · simp [call_matching_handlers, hm, hc] at hok
    · have hok2 : (call_matching_handlers rest cbOk m).2 = true := by
        simpa [call_matching_handlers, hm] using hok
      simp [call_matching_handlers, hm, List.filter_cons, ih hok2]

/-- When every matching callback returns normally, no exception escapes the
dispatch loop. -/
theorem call_ok_of_all (H : List GroupMessageHandler)
    (cbOk : GroupMessageHandler → GroupMessage → Bool) (m : GroupMessage)
    (hcb : ∀ h, handlerMatches h m = true → cbOk h m = true) :
    (call_matching_handlers H cbOk m).2 = true := by
  induction H with
  | nil => rfl
  | cons h rest ih =>
    by_cases hm : handlerMatches h m = true
    · simp [call_matching_handlers, hm, hcb h hm, ih]
    · simp [call_matching_handlers, hm, ih]

/-- Dispatch emits only invocation events, never a watermark commit. -/
theorem commit_not_mem_call (H : List GroupMessageHandler)
    (cbOk : GroupMessageHandler → GroupMessage → Bool) (m : GroupMessage) (mid : String) :
    BotEvent.commit mid ∉ (call_matching_handlers H cbOk m).1 := by
  induction H with
  | nil => simp [call_matching_handlers]
  | cons h rest ih =>
    by_cases hm : handlerMatches h m = true
    · by_cases hc : cbOk h m = true
      · simp [call_matching_handlers, hm, hc, ih]
      · simp [call_matching_handlers, hm, hc]
    · simpa [call_matching_handlers, hm] using ih

/-- The boolean matching condition unfolded to its specification. -/
theorem handlerMatches_iff (h : GroupMessageHandler) (m : GroupMessage) :
    handlerMatches h m = true ↔
      (m.group = h.group ∧
        (h.senders = none ∨ ∃ ss, h.senders = some ss ∧ m.sender ∈ ss)) := by
  unfold handlerMatches
  cases hs : h.senders with
  | none => simp
  | some ss =>
    simp only [Bool.and_eq_true, beq_iff_eq]
    constructor
    · rintro ⟨hg, hc⟩
      exact ⟨hg, Or.inr ⟨ss, rfl, List.elem_iff.mp hc⟩⟩
    · rintro ⟨hg, hss⟩
      refine ⟨hg, ?_⟩
      rcases hss with hnone | ⟨ss2, hss2, hmem⟩
      · cases hnone
      · rw [Option.some.injEq] at hss2
        subst hss2
        exact List.elem_iff.mpr hmem

/-- C10: registering a handler equal to an already-registered one leaves
the handler list unchanged, registering the same handler twice equals
registering it once, and registration keeps the handler list free of
duplicate registrations. -/
theorem C10_add_handler_idempotent (hs : List GroupMessageHandler)
    (h : GroupMessageHandler) :
    (h ∈ hs → add_handler hs h = hs) ∧
    add_handler (add_handler hs h) h = add_handler hs h ∧
    (hs.Nodup → (add_handler hs h).Nodup) := by
  refine ⟨fun hm => by simp [add_handler, hm], ?_, ?_⟩
  · by_cases hm : h ∈ hs
    · simp [add_handler, hm]
    · simp [add_handler, hm]
  · intro hnd
    by_cases hm : h ∈ hs
    · simpa [add_handler, hm] using hnd
    · simp [add_handler, hm, List.nodup_append, hnd]

/-- C10 witness at concrete inputs. -/
theorem C10_add_handler_idempotent_witness :
    add_handler [handlerAll] handlerAll = [handlerAll] ∧
    add_handler (add_handler [] handlerAll) handlerAll = add_handler [] handlerAll ∧
    (add_handler [handlerFiltered] handlerAll).Nodup :=
  ⟨(C10_add_handler_idempotent [handlerAll] handlerAll).1 (by decide),
   (C10_add_handler_idempotent [] handlerAll).2.1,
   (C10_add_handler_idempotent [handlerFiltered] handlerAll).2.2 (by decide)⟩

/-- C3: when callbacks return normally, dispatch invokes exactly the
registrations whose group equals the message's group and whose sender set
is absent or contains the message's sender — each such registration once
per occurrence, and no other registration at all. -/
theorem C3_dispatch_exactly_matching (H : List GroupMessageHandler)
    (m : GroupMessage) (cbOk : GroupMessageHandler → GroupMessage → Bool)
    (hcb : ∀ h, handlerMatches h m = true → cbOk h m = true) :
    (call_matching_handlers H cbOk m).1
      = (H.filter (fun h => handlerMatches h m)).map (fun h => BotEvent.invoke h m.id) ∧
    (call_matching_handlers H cbOk m).2 = true ∧
    (∀ h, (call_matching_handlers H cbOk m).1.count (BotEvent.invoke h m.id)
        = if handlerMatches h m = true then H.count h else 0) ∧
    (∀ h, handlerMatches h m = true ↔
      (m.group = h.group ∧
        (h.senders = none ∨ ∃ ss, h.senders = some ss ∧ m.sender ∈ ss))) := by
  have hok := call_ok_of_all H cbOk m hcb
  have htr := call_trace_of_ok H cbOk m hok
  refine ⟨htr, hok, ?_, ?_⟩
  · intro h
    rw [htr]
    have hinj : Function.Injective (fun h : GroupMessageHandler => BotEvent.invoke h m.id) := by
      intro a b hab
      simpa using hab
    rw [List.count_map_of_injective _ _ hinj]
    by_cases hm : handlerMatches h m = true
    · simp [hm, List.count_filter]
    · simp only [hm, if_false]
      exact List.count_eq_zero_of_not_mem (by simp [List.mem_filter, hm])
  · exact fun h => handlerMatches_iff h m

/-- C3 witness at concrete inputs. -/
theorem C3_dispatch_exactly_matching_witness :
    (call_matching_handlers [handlerAll, handlerFiltered] (fun _ _ => true) msgA).1
      = ([handlerAll, handlerFiltered].filter (fun h => handlerMatches h msgA)).map
          (fun h => BotEvent.invoke h msgA.id) ∧
    (call_matching_handlers [handlerAll, handlerFiltered] (fun _ _ => true) msgA).2 = true :=
  ⟨(C3_dispatch_exactly_matching [handlerAll, handlerFiltered] msgA _
      (fun _ _ => rfl)).1,
   (C3_dispatch_exactly_matching [handlerAll, handlerFiltered] msgA _
      (fun _ _ => rfl)).2.1⟩

/-- C8: a row whose visible text is empty is rejected by the row parser,
and in the row loop of the unread scan such a row is skipped while its
sibling rows are still parsed and returned in order. -/
theorem C8_empty_text_row :
    (∀ g r, r.selectableText = some "" → get_message_from_row g r = none) ∧
    (∀ g (pre : List Row) r post, r.selectableText = some "" →
      parse_rows g (pre ++ r :: post) = parse_rows g pre ++ parse_rows g post) := by
  have h1 : ∀ g r, r.selectableText = some "" → get_message_from_row g r = none := by
    intro g r hr
    unfold get_message_from_row
    cases hd : dataIdSender r.dataId.data with
    | none => rfl
    | some sd =>
      cases hp : r.prePlainText with
      | none => rfl
      | some ppt =>
        cases ht : prePlainTime ppt.data with
        | none => simp [ht]
        | some rt =>
          cases hf : format_message_time (String.mk rt) with
          | none => simp [ht, hf]
          | some ft => simp [ht, hf, hr]
  refine ⟨h1, fun g pre r post hr => ?_⟩
  induction pre with
  | nil => simp [parse_rows, h1 g r hr]
  | cons p ps ih =>
    simp only [List.cons_append, parse_rows]
    cases get_message_from_row g p <;> simp [ih]

/-- C8 witness at concrete inputs. -/
theorem C8_empty_text_row_witness :
    get_message_from_row "G" rowEmpty = none ∧
    parse_rows "G" ([rowM1] ++ rowEmpty :: [rowM2]) =
      parse_rows "G" [rowM1] ++ parse_rows "G" [rowM2] :=
  ⟨C8_empty_text_row.1 "G" rowEmpty rfl,
   C8_empty_text_row.2 "G" [rowM1] rowEmpty [rowM2] rfl⟩

/-- C5 counterexample: `handlerFiltered` matches `msgA`, yet when the
callback of the earlier matching registration `handlerAll` raises,
`handlerFiltered` is never invoked, the message's watermark commit never
happens, and the exception escapes the cycle (flag `false`) — refuting the
claim that a callback failure is caught per-registration, that the other
matching registrations still fire, and that the cycle is not aborted. -/
theorem C5_callback_failure_cx :
    handlerMatches handlerFiltered msgA = true ∧
    (call_matching_handlers [handlerAll, handlerFiltered]
        (fun h _ => h.callback != 0) msgA).2 = false ∧
    BotEvent.invoke handlerFiltered msgA.id ∉
      (call_matching_handlers [handlerAll, handlerFiltered]
        (fun h _ => h.callback != 0) msgA).1 ∧
    BotEvent.commit msgA.id ∉
      (processMessages [handlerAll, handlerFiltered] (fun h _ => h.callback != 0)
        (fun _ => true) [msgA]).1 ∧
    (processMessages [handlerAll, handlerFiltered] (fun h _ => h.callback != 0)
        (fun _ => true) [msgA]).2 = false := by decide

/-- C5 amended: a callback exception is not caught per-registration: the
failing registration is the last one invoked for that message, later
matching registrations do not fire, the message's watermark commit is
skipped, and the exception aborts the poll iteration. -/
theorem C5_callback_failure_amended (cbOk : GroupMessageHandler → GroupMessage → Bool)
    (setOk : String → Bool) (m : GroupMessage) (h : GroupMessageHandler)
    (pre post : List GroupMessageHandler) (rest : List GroupMessage)
    (hmatch : handlerMatches h m = true) (hfail : cbOk h m = false)
    (hpre : ∀ h2 ∈ pre, handlerMatches h2 m = true → cbOk h2 m = true) :
    call_matching_handlers (pre ++ h :: post) cbOk m
      = ((pre.filter (fun x => handlerMatches x m)).map
            (fun x => BotEvent.invoke x m.id) ++ [BotEvent.invoke h m.id], false) ∧
    processMessages (pre ++ h :: post) cbOk setOk (m :: rest)
      = ((pre.filter (fun x => handlerMatches x m)).map
            (fun x => BotEvent.invoke x m.id) ++ [BotEvent.invoke h m.id], false) := by
  have hcall : call_matching_handlers (pre ++ h :: post) cbOk m
      = ((pre.filter (fun x => handlerMatches x m)).map
            (fun x => BotEvent.invoke x m.id) ++ [BotEvent.invoke h m.id], false) := by
    induction pre with
    | nil => simp [call_matching_handlers, hmatch, hfail]
    | cons p ps ih =>
      have ihh := ih (fun h2 hh2 => hpre h2 (List.mem_cons_of_mem p hh2))
      by_cases hp : handlerMatches p m = true
      · simp [call_matching_handlers, hp, hpre p (List.mem_cons_self p ps) hp,
          List.filter_cons, ihh]
      · simp [call_matching_handlers, hp, List.filter_cons, ihh]
  refine ⟨hcall, ?_⟩
  simp only [processMessages, hcall]
  rfl

/-- C5 amended witness at concrete inputs. -/
theorem C5_callback_failure_amended_witness :
    call_matching_handlers ([] ++ handlerAll :: [handlerFiltered])
        (fun h _ => h.callback != 0) msgA
      = (([] : List GroupMessageHandler).filter (fun x => handlerMatches x msgA) |>.map
            (fun x => BotEvent.invoke x msgA.id) |>.append [BotEvent.invoke handlerAll msgA.id],
          false) ∧
    processMessages ([] ++ handlerAll :: [handlerFiltered])
        (fun h _ => h.callback != 0) (fun _ => true) [msgA]
      = (([] : List GroupMessageHandler).filter (fun x => handlerMatches x msgA) |>.map
            (fun x => BotEvent.invoke x msgA.id) |>.append [BotEvent.invoke handlerAll msgA.id],
          false) :=
  C5_callback_failure_amended (fun h _ => h.callback != 0) (fun _ => true) msgA
    handlerAll [] [handlerFiltered] [] (by decide) (by decide)
    (fun h2 hh2 => absurd hh2 (List.not_mem_nil h2))

/-- C4 counterexample: with a watermark store whose write raises an
IOError, the first group's write failure aborts the entire iteration: the
second group's message is never dispatched, no commit is recorded, and the
exception escapes `run_loop` (flag `false`) — refuting the claim that an
IOError from the Watermark Store aborts only that group's cycle, that the
loop continues with the remaining groups, and that the process survives. -/
theorem C4_error_isolation_cx :
    (runIteration [handlerAll]
        (fun g => if g == "g1" then .ok [msgA] else .ok [msgB])
        (fun _ _ => true) (fun _ => false) ["g1", "g2"]).2 = false ∧
    BotEvent.invoke handlerAll msgB.id ∉
      (runIteration [handlerAll]
        (fun g => if g == "g1" then .ok [msgA] else .ok [msgB])
        (fun _ _ => true) (fun _ => false) ["g1", "g2"]).1 ∧
    BotEvent.commit msgA.id ∉
      (runIteration [handlerAll]
        (fun g => if g == "g1" then .ok [msgA] else .ok [msgB])
        (fun _ _ => true) (fun _ => false) ["g1", "g2"]).1 := by decide

/-- C4 amended: a failure inside the unread scan of a group (for example a
GroupNotFoundError, or an IOError while reading the store) is logged and
aborts only that group's cycle — the iteration continues with the
remaining groups — and when a group's dispatch-and-commit loop completes
the iteration also continues; but a failure inside the dispatch-and-commit
loop (a callback exception or an IOError from the watermark write) is not
caught and aborts the whole iteration and process. -/
theorem C4_error_isolation_amended (H : List GroupMessageHandler)
    (scan : String → Except Unit (List GroupMessage))
    (cbOk : GroupMessageHandler → GroupMessage → Bool) (setOk : String → Bool)
    (g : String) (gs : List String) :
    (scan g = .error () →
      runIteration H scan cbOk setOk (g :: gs)
        = (BotEvent.scanError g :: (runIteration H scan cbOk setOk gs).1,
            (runIteration H scan cbOk setOk gs).2)) ∧
    (∀ msgs, scan g = .ok msgs → (processMessages H cbOk setOk msgs).2 = true →
      runIteration H scan cbOk setOk (g :: gs)
        = ((processMessages H cbOk setOk msgs).1 ++ (runIteration H scan cbOk setOk gs).1,
            (runIteration H scan cbOk setOk gs).2)) ∧
    (∀ msgs, scan g = .ok msgs → (processMessages H cbOk setOk msgs).2 = false →
      runIteration H scan cbOk setOk (g :: gs)
        = ((processMessages H cbOk setOk msgs).1, false)) := by
  refine ⟨fun herr => ?_, fun msgs hok hp => ?_, fun msgs hok hp => ?_⟩
  · simp [runIteration, herr]
  · simp [runIteration, hok, hp]
  · simp [runIteration, hok, hp]

/-- C4 amended witness at concrete inputs. -/
theorem C4_error_isolation_amended_witness :
    runIteration [handlerAll] (fun g => if g == "g1" then .error () else .ok [msgB])
        (fun _ _ => true) (fun _ => true) ["g1", "g2"]
      = (BotEvent.scanError "g1" ::
          (runIteration [handlerAll] (fun g => if g == "g1" then .error () else .ok [msgB])
            (fun _ _ => true) (fun _ => true) ["g2"]).1,
          (runIteration [handlerAll] (fun g => if g == "g1" then .error () else .ok [msgB])
            (fun _ _ => true) (fun _ => true) ["g2"]).2) :=
  (C4_error_isolation_amended [handlerAll]
    (fun g => if g == "g1" then .error () else .ok [msgB])
    (fun _ _ => true) (fun _ => true) "g1" ["g2"]).1 rfl

/-- Splitting a trace that starts with a commit-free block followed by a
commit: a commit found in it is either that very commit or lies further
right. -/
theorem no_commit_append_split (xs tr l r : List BotEvent) (c mid : String)
    (hx : BotEvent.commit mid ∉ xs)
    (heq : xs ++ BotEvent.commit c :: tr = l ++ BotEvent.commit mid :: r) :
    (l = xs ∧ mid = c ∧ r = tr) ∨
    (∃ l2, l = xs ++ BotEvent.commit c :: l2 ∧ tr = l2 ++ BotEvent.commit mid :: r) := by
  revert hx heq
  induction xs generalizing l with
  | nil =>
    intro hx heq
    cases l with
    | nil =>
      simp only [List.nil_append, List.cons.injEq] at heq
      exact Or.inl ⟨rfl, by injection heq.1 with h1; exact h1.symm, heq.2.symm⟩
    | cons e l2 =>
      simp only [List.nil_append, List.cons_append, List.cons.injEq] at heq
      exact Or.inr ⟨l2, by simp [heq.1], heq.2⟩
  | cons x xs2 ih =>
    intro hx heq
    cases l with
    | nil =>
      simp only [List.cons_append, List.nil_append, List.cons.injEq] at heq
      exact absurd (by rw [← heq.1]; exact List.mem_cons_self x xs2) hx
    | cons e l2 =>
      simp only [List.cons_append, List.cons.injEq] at heq
      rcases ih l2 (fun hm => hx (List.mem_cons_of_mem x hm)) heq.2 with
        ⟨h1, h2, h3⟩ | ⟨l3, h1, h2⟩
      · exact Or.inl ⟨by simp [heq.1, h1], h2, h3⟩
      · exact Or.inr ⟨l3, by simp [heq.1, h1], h2⟩

/-- C2: the watermark commit of each message is emitted immediately after
that message's dispatch, once per message and never batched: in the
failure-free run the trace is the concatenation of per-message blocks each
ending in that message's commit, and in every run any commit in the trace
is preceded by the completed dispatch of a message with that identifier,
including the invocation of every matching registration. -/
theorem C2_commit_after_dispatch :
    (∀ (H : List GroupMessageHandler) (msgs : List GroupMessage),
      processMessages H (fun _ _ => true) (fun _ => true) msgs
        = (msgs.flatMap (fun m => (call_matching_handlers H (fun _ _ => true) m).1
            ++ [BotEvent.commit m.id]), true)) ∧
    (∀ (H : List GroupMessageHandler)
        (cbOk : GroupMessageHandler → GroupMessage → Bool) (setOk : String → Bool)
        (msgs : List GroupMessage) (l r : List BotEvent) (mid : String),
      (processMessages H cbOk setOk msgs).1 = l ++ BotEvent.commit mid :: r →
      ∃ m, m ∈ msgs ∧ m.id = mid ∧
        List.IsSuffix (call_matching_handlers H cbOk m).1 l ∧
        ∀ h ∈ H, handlerMatches h m = true → BotEvent.invoke h m.id ∈ l) := by
  constructor
  · intro H msgs
    induction msgs with
    | nil => rfl
    | cons m rest ih =>
      have hok : (call_matching_handlers H (fun _ _ => true) m).2 = true :=
        call_ok_of_all H _ m (fun _ _ => rfl)
      simp [processMessages, hok, ih]
  · intro H cbOk setOk msgs
    induction msgs with
    | nil => intro l r mid heq; simp [processMessages] at heq
    | cons m rest ih =>
      intro l r mid heq
      by_cases hd : (call_matching_handlers H cbOk m).2 = true
      · by_cases hs : setOk m.id = true
        · have heq2 : (call_matching_handlers H cbOk m).1 ++
              BotEvent.commit m.id :: (processMessages H cbOk setOk rest).1
              = l ++ BotEvent.commit mid :: r := by
            simpa [processMessages, hd, hs] using heq
          rcases no_commit_append_split _ _ _ _ _ _
              (commit_not_mem_call H cbOk m mid) heq2 with
            ⟨h1, h2, _⟩ | ⟨l2, h1, h2⟩
          · refine ⟨m, List.mem_cons_self m rest, h2.symm, by rw [h1], ?_⟩
            intro h hh hm
            rw [h1, call_trace_of_ok H cbOk m hd]
            exact List.mem_map_of_mem _ (List.mem_filter.mpr ⟨hh, hm⟩)
          · rcases ih l2 r mid h2 with ⟨m2, hm2, hid, hsuf, hinv⟩
            refine ⟨m2, List.mem_cons_of_mem m hm2, hid, ?_, ?_⟩
            · refine hsuf.trans ⟨(call_matching_handlers H cbOk m).1
                ++ [BotEvent.commit m.id], ?_⟩
              rw [h1]
              simp
            · intro h hh hm
              rw [h1]
              exact List.mem_append_right _ (List.mem_cons_of_mem _ (hinv h hh hm))
        · have : (processMessages H cbOk setOk (m :: rest)).1
              = (call_matching_handlers H cbOk m).1 := by
            simp [processMessages, hd, hs]
          rw [this] at heq
          exact absurd (heq ▸ List.mem_append_right l (List.mem_cons_self _ r))
            (commit_not_mem_call H cbOk m mid)
      · have : (processMessages H cbOk setOk (m :: rest)).1
            = (call_matching_handlers H cbOk m).1 := by
          simp [processMessages, hd]
        rw [this] at heq
        exact absurd (heq ▸ List.mem_append_right l (List.mem_cons_self _ r))
          (commit_not_mem_call H cbOk m mid)

/-- C2 witness at concrete inputs. -/
theorem C2_commit_after_dispatch_witness :
    ∃ m, m ∈ [msgA] ∧ m.id = msgA.id ∧
      List.IsSuffix (call_matching_handlers [handlerAll] (fun _ _ => true) m).1
        [BotEvent.invoke handlerAll msgA.id] ∧
      ∀ h ∈ [handlerAll], handlerMatches h m = true →
        BotEvent.invoke h m.id ∈ [BotEvent.invoke handlerAll msgA.id] :=
  C2_commit_after_dispatch.2 [handlerAll] (fun _ _ => true) (fun _ => true) [msgA]
    [BotEvent.invoke handlerAll msgA.id] [] msgA.id (by decide)

/-- With a strictly positive fuel budget exceeding the number of rows left
to load, the scroll loop exits. -/
theorem scrollLoop_isSome (all : List Row) (wid : Option String) (loaded fuel : Nat)
    (h1 : all.length < loaded + fuel) (h2 : 0 < fuel) :
    (scrollLoop all wid loaded fuel).isSome = true := by
  induction fuel generalizing loaded with
  | zero => omega
  | succ fuel ih =>
    rw [scrollLoop]
    by_cases hf : widFound (loadedRows all loaded) wid = true
    · simp [hf]
    · by_cases ht : topReached all loaded = true
      · simp [hf, ht]
      · have hlt : loaded < all.length := by
          simpa [topReached, Nat.not_le] using ht
        simp only [hf, ht, if_false]
        exact ih (loaded + 1) (by omega) (by omega)

/-- When the watermark row is already present in the loaded window, the
scroll loop exits at once with the watermark id. -/
theorem scrollLoop_found (all : List Row) (wid : Option String) (loaded fuel : Nat)
    (h2 : 0 < fuel) (hf : widFound (loadedRows all loaded) wid = true) :
    scrollLoop all wid loaded fuel = some (wid, loaded) := by
  cases fuel with
  | zero => omega
  | succ fuel => rw [scrollLoop, if_pos hf]

/-- When no row of the conversation carries the watermark id, the scroll
loop scrolls all the way to the encryption notice and reports the
watermark as not found. -/
theorem scrollLoop_not_found (all : List Row) (w : String) (loaded fuel : Nat)
    (h1 : all.length < loaded + fuel) (h2 : 0 < fuel)
    (hw : ∀ r ∈ all, r.dataId ≠ w) :
    scrollLoop all (some w) loaded fuel = some (none, max loaded all.length) := by
  induction fuel generalizing loaded with
  | zero => omega
  | succ fuel ih =>
    have hf : widFound (loadedRows all loaded) (some w) = false := by
      simp only [widFound, List.any_eq_false]
      intro r hr
      simpa using hw r (List.drop_subset _ _ hr)
    rw [scrollLoop, hf]
    by_cases ht : topReached all loaded = true
    · have : all.length ≤ loaded := by simpa [topReached] using ht
      simp [ht, Nat.max_eq_left this]
    · have hlt : loaded < all.length := by
        simpa [topReached, Nat.not_le] using ht
      simp only [ht, if_false, Bool.false_eq_true]
      rw [ih (loaded + 1) (by omega) (by omega)]
      congr 2
      omega

/-- C6: the scroll-back loop terminates on every conversation whenever its
fuel exceeds the rows left to load: it exits as soon as the watermark row
is present in the loaded window, and otherwise — in particular when the
watermark message has been deleted from the conversation — it exits at the
encryption-notice sentinel with the watermark reported as not found. -/
theorem C6_scroll_terminates :
    (∀ (all : List Row) (wid : Option String) (loaded fuel : Nat),
      all.length < loaded + fuel → 0 < fuel →
      (scrollLoop all wid loaded fuel).isSome = true) ∧
    (∀ (all : List Row) (wid : Option String) (loaded fuel : Nat),
      0 < fuel → widFound (loadedRows all loaded) wid = true →
      scrollLoop all wid loaded fuel = some (wid, loaded)) ∧
    (∀ (all : List Row) (w : String) (loaded fuel : Nat),
      all.length < loaded + fuel → 0 < fuel →
      (∀ r ∈ all, r.dataId ≠ w) →
      scrollLoop all (some w) loaded fuel = some (none, max loaded all.length)) :=
  ⟨fun all wid loaded fuel h1 h2 => scrollLoop_isSome all wid loaded fuel h1 h2,
   fun all wid loaded fuel h2 hf => scrollLoop_found all wid loaded fuel h2 hf,
   fun all w loaded fuel h1 h2 hw => scrollLoop_not_found all w loaded fuel h1 h2 hw⟩

/-- C6 witness at concrete inputs (the watermark id `deleted` is carried
by no row of the conversation). -/
theorem C6_scroll_terminates_witness :
    (scrollLoop rowsM (some "deleted") 0 6).isSome = true ∧
    scrollLoop rowsM (some rowM3.dataId) 5 1 = some (some rowM3.dataId, 5) ∧
    scrollLoop rowsM (some "deleted") 0 6 = some (none, max 0 rowsM.length) :=
  ⟨C6_scroll_terminates.1 rowsM (some "deleted") 0 6 (by decide) (by decide),
   C6_scroll_terminates.2.1 rowsM (some rowM3.dataId) 5 1 (by decide) (by decide),
   C6_scroll_terminates.2.2 rowsM "deleted" 0 6 (by decide) (by decide) (by decide)⟩

/-- Selecting the rows after the first occurrence of the watermark id. -/
theorem rowsAfter_eq (pre : List Row) (w : Row) (post : List Row) (wid : String)
    (hwid : w.dataId = wid) (hpre : ∀ r ∈ pre, r.dataId ≠ wid) :
    rowsAfter (pre ++ w :: post) wid = post := by
  induction pre with
  | nil => simp [rowsAfter, hwid]
  | cons p ps ih =>
    rw [List.cons_append, rowsAfter, if_neg (hpre p (List.mem_cons_self p ps))]
    exact ih (fun r hr => hpre r (List.mem_cons_of_mem p hr))

/-- C1: when the watermark row is present among the loaded rows, the
unread scan returns exactly the incoming rows strictly after the watermark
row, in display order; when no row carries the watermark id, it returns
every loaded incoming row; and on the concrete conversation
`[M1, M2, M3, M4, M5]` with watermark `M3` it returns exactly `[M4, M5]`. -/
theorem C1_unread_scan :
    (∀ (all : List Row) (wid : String) (loaded0 fuel : Nat)
        (pre post : List Row) (w : Row),
      0 < fuel →
      loadedRows all loaded0 = pre ++ w :: post →
      w.dataId = wid →
      (∀ r ∈ pre, r.dataId ≠ wid) →
      get_unread_message_rows all (some wid) loaded0 fuel
        = some (post.filter isIncomingRow)) ∧
    (∀ (all : List Row) (wid : String) (loaded0 fuel : Nat),
      all.length < loaded0 + fuel → 0 < fuel →
      (∀ r ∈ all, r.dataId ≠ wid) →
      get_unread_message_rows all (some wid) loaded0 fuel
        = some (all.filter isIncomingRow)) ∧
    get_unread_message_rows rowsM (some rowM3.dataId) 5 6 = some [rowM4, rowM5] := by
  refine ⟨?_, ?_, by decide⟩
  · intro all wid loaded0 fuel pre post w hfuel hload hwid hpre
    have hfound : widFound (loadedRows all loaded0) (some wid) = true := by
      simp only [widFound, List.any_eq_true]
      refine ⟨w, ?_, by simp [hwid]⟩
      rw [hload]
      exact List.mem_append_right _ (List.mem_cons_self _ _)
    unfold get_unread_message_rows
    rw [scrollLoop_found all (some wid) loaded0 fuel hfuel hfound]
    simp only [hload, rowsAfter_eq pre w post wid hwid hpre]
  · intro all wid loaded0 fuel h1 h2 hw
    unfold get_unread_message_rows
    rw [scrollLoop_not_found all wid loaded0 fuel h1 h2 hw]
    have hall : loadedRows all (max loaded0 all.length) = all := by
      unfold loadedRows
      have hz : all.length - max loaded0 all.length = 0 := by omega
      rw [hz]
      exact List.drop_zero all
    simp [hall]

/-- C1 witness at concrete inputs. -/
theorem C1_unread_scan_witness :
    get_unread_message_rows rowsM (some rowM3.dataId) 5 1
        = some ([rowM4, rowM5].filter isIncomingRow) ∧
    get_unread_message_rows rowsM (some "deleted") 0 6
        = some (rowsM.filter isIncomingRow) :=
  ⟨C1_unread_scan.1 rowsM rowM3.dataId 5 1 [rowM1, rowM2] [rowM4, rowM5] rowM3
      (by decide) (by decide) rfl (by decide),
   C1_unread_scan.2.1 rowsM "deleted" 0 6 (by decide) (by decide) (by decide)⟩

/-- The format loop is the first-success search over the format list. -/
theorem formatFirst_eq_findSome (fs : List (List Dir)) (s : List Char) :
    formatFirst fs s = fs.findSome? (fun f => tryFormat f s) := by
  induction fs with
  | nil => rfl
  | cons f fs ih =>
    rw [formatFirst, List.findSome?_cons]
    cases tryFormat f s <;> simp [ih]

/-- C7: the time parser returns the first format of the fixed priority
list that parses, and fails exactly when every known format fails; for a
date ambiguous between month/day and day/month order the earlier
month/day format wins (`3/4/2023` parses as March 4, `5/6/2023` as
May 6), and an unknown shape is an error. -/
theorem C7_time_format_priority :
    (∀ t : String, format_message_time t
        = (timeFormats.findSome? (fun f => tryFormat f t.data)).map String.mk) ∧
    (∀ t : String, format_message_time t = none ↔
        ∀ f ∈ timeFormats, tryFormat f t.data = none) ∧
    format_message_time "1:02 PM, 3/4/2023" = some "2023-03-04 13:02:00" ∧
    format_message_time "3:04 AM, 5/6/2023" = some "2023-05-06 03:04:00" ∧
    format_message_time "not a time" = none := by
  refine ⟨fun t => by rw [format_message_time, formatFirst_eq_findSome],
    fun t => ?_, by decide, by decide, by decide⟩
  rw [format_message_time, formatFirst_eq_findSome]
  simp [List.findSome?_eq_none_iff]

/-- C7 witness at a concrete input. -/
theorem C7_time_format_priority_witness :
    format_message_time "9:49 AM, 4/28/2023"
      = (timeFormats.findSome? (fun f => tryFormat f ("9:49 AM, 4/28/2023").data)).map
          String.mk :=
  C7_time_format_priority.1 "9:49 AM, 4/28/2023"

/-- A decimal digit character decodes back to its value. -/
theorem digitVal_digitChar (d : Nat) (h : d < 10) :
    digitVal (Nat.digitChar d) = d := by
  interval_cases d <;> decide

/-- A decimal digit character is a digit. -/
theorem digitChar_isDigit (d : Nat) (h : d < 10) :
    (Nat.digitChar d).isDigit = true := by
  interval_cases d <;> decide

/-- A decimal digit character is not whitespace. -/
theorem digitChar_not_ws (d : Nat) (h : d < 10) :
    isPyWs (Nat.digitChar d) = false := by
  interval_cases d <;> decide

/-- A decimal digit character is not a comma. -/
theorem digitChar_ne_comma (d : Nat) (h : d < 10) :
    Nat.digitChar d ≠ ',' := by
  interval_cases d <;> decide

/-- Digit characters for values up to 5 lie between `0` and `5`. -/
theorem digitChar_between_0_5 (d : Nat) (h : d ≤ 5) :
    ('0' ≤ Nat.digitChar d && Nat.digitChar d ≤ '5') = true := by
  interval_cases d <;> decide

/-- Digit characters for values 1 to 9 lie between `1` and `9`. -/
theorem digitChar_between_1_9 (d : Nat) (h1 : 1 ≤ d) (h2 : d ≤ 9) :
    ('1' ≤ Nat.digitChar d && Nat.digitChar d ≤ '9') = true := by
  interval_cases d <;> decide

/-- Digit characters for values up to 2 lie between `0` and `2`. -/
theorem digitChar_between_0_2 (d : Nat) (h : d ≤ 2) :
    ('0' ≤ Nat.digitChar d && Nat.digitChar d ≤ '2') = true := by
  interval_cases d <;> decide

/-- Digit characters for values up to 3 lie between `0` and `3`. -/
theorem digitChar_between_0_3 (d : Nat) (h : d ≤ 3) :
    ('0' ≤ Nat.digitChar d && Nat.digitChar d ≤ '3') = true := by
  interval_cases d <;> decide

/-- Digit characters for values up to 1 lie between `0` and `1`. -/
theorem digitChar_between_0_1 (d : Nat) (h : d ≤ 1) :
    ('0' ≤ Nat.digitChar d && Nat.digitChar d ≤ '1') = true := by
  interval_cases d <;> decide

/-- Digit characters for values up to 5 differ from `6`. -/
theorem digitChar_beq_6 (d : Nat) (h : d ≤ 5) :
    (Nat.digitChar d == '6') = false := by
  interval_cases d <;> decide

/-- Digit characters for values up to 1 differ from `2`. -/
theorem digitChar_beq_2 (d : Nat) (h : d ≤ 1) :
    (Nat.digitChar d == '2') = false := by
  interval_cases d <;> decide

/-- The digit accumulator ignores the exact fuel once the fuel covers the
number's digits. -/
theorem natDigitsAux_fuel (n : Nat) : ∀ f1 f2 acc, 0 < f1 → 0 < f2 →
    n < 10 ^ f1 → n < 10 ^ f2 → natDigitsAux f1 n acc = natDigitsAux f2 n acc := by
  induction n using Nat.strong_induction_on with
  | _ n ih =>
    intro f1 f2 acc h1 h2 hb1 hb2
    obtain ⟨g1, rfl⟩ := Nat.exists_eq_succ_of_ne_zero (Nat.pos_iff_ne_zero.mp h1)
    obtain ⟨g2, rfl⟩ := Nat.exists_eq_succ_of_ne_zero (Nat.pos_iff_ne_zero.mp h2)
    by_cases hn : n < 10
    · simp [natDigitsAux, hn]
    · have hng : 10 ≤ n := by omega
      have hg1 : 0 < g1 := by
        by_contra hg
        have : g1 = 0 := by omega
        subst this
        simp [pow_succ, pow_zero] at hb1
        omega
      have hg2 : 0 < g2 := by
        by_contra hg
        have : g2 = 0 := by omega
        subst this
        simp [pow_succ, pow_zero] at hb2
        omega
      have hd1 : n / 10 < 10 ^ g1 := by
        rw [Nat.div_lt_iff_lt_mul (by omega)]
        calc n < 10 ^ (g1 + 1) := hb1
        _ = 10 ^ g1 * 10 := by rw [pow_succ]
      have hd2 : n / 10 < 10 ^ g2 := by
        rw [Nat.div_lt_iff_lt_mul (by omega)]
        calc n < 10 ^ (g2 + 1) := hb2
        _ = 10 ^ g2 * 10 := by rw [pow_succ]
      simp only [natDigitsAux, if_neg (by omega : ¬ n < 10)]
      exact ih (n / 10) (Nat.div_lt_self (by omega) (by omega)) g1 g2 _ hg1 hg2 hd1 hd2

/-- The year rendering for four-digit years is the four zero-padded
digits. -/
theorem natDigits_eq_pad4 (y : Nat) (h1 : 1000 ≤ y) (h2 : y ≤ 9999) :
    natDigits y = pad4 y := by
  have hfuel : natDigits y = natDigitsAux 4 y [] := by
    rw [natDigits]
    exact natDigitsAux_fuel y (y + 1) 4 [] (by omega) (by omega)
      (Nat.lt_of_lt_of_le (Nat.lt_pow_self (by omega) y)
        (Nat.pow_le_pow_right (by omega) (by omega)))
      (by norm_num; omega)
  rw [hfuel]
  simp only [natDigitsAux, if_neg (by omega : ¬ y < 10),
    if_neg (by omega : ¬ y / 10 < 10), Nat.div_div_eq_div_mul,
    if_neg (show ¬ y / 100 < 10 by omega), if_pos (show y / 1000 < 10 by omega)]
  have : y / 10 / 10 = y / 100 := by omega
  rw [pad4]
  have e1 : y / 1000 % 10 = y / 1000 := by omega
  have e2 : y / 10 / 10 / 10 = y / 1000 := by omega
  have e3 : y / 10 / 10 % 10 = y / 100 % 10 := by omega
  have e4 : y / 10 % 10 = y / 10 % 10 := rfl
  simp only [e2, e3, e1]

/-- The digit accumulator adds at most `fuel` characters. -/
theorem natDigitsAux_length (fuel : Nat) : ∀ (n : Nat) (acc : List Char),
    (natDigitsAux fuel n acc).length ≤ fuel + acc.length := by
  induction fuel with
  | zero => intro n acc; simp [natDigitsAux]
  | succ fuel ih =>
    intro n acc
    by_cases hn : n < 10
    · simp [natDigitsAux, hn]
      omega
    · simp only [natDigitsAux, if_neg hn]
      have := ih (n / 10) (Nat.digitChar (n % 10) :: acc)
      simp at this
      omega

/-- Years below 1000 render with at most three digits. -/
theorem natDigits_length_le3 (y : Nat) (h : y < 1000) :
    (natDigits y).length ≤ 3 := by
  have hfuel : natDigits y = natDigitsAux 3 y [] := by
    rw [natDigits]
    exact natDigitsAux_fuel y (y + 1) 3 [] (by omega) (by omega)
      (Nat.lt_of_lt_of_le (Nat.lt_pow_self (by omega) y)
        (Nat.pow_le_pow_right (by omega) (by omega)))
      (by norm_num; omega)
  rw [hfuel]
  have := natDigitsAux_length 3 y []
  simpa using this

/-- Every character of the digit rendering is a decimal digit character
or comes from the accumulator. -/
theorem mem_natDigitsAux (fuel : Nat) : ∀ (n : Nat) (acc : List Char) (c : Char),
    c ∈ natDigitsAux fuel n acc → c ∈ acc ∨ ∃ d, d < 10 ∧ c = Nat.digitChar d := by
  induction fuel with
  | zero => intro n acc c hc; exact Or.inl hc
  | succ fuel ih =>
    intro n acc c hc
    by_cases hn : n < 10
    · simp only [natDigitsAux, if_pos hn] at hc
      rcases List.mem_cons.mp hc with hc | hc
      · exact Or.inr ⟨n, hn, hc⟩
      · exact Or.inl hc
    · simp only [natDigitsAux, if_neg hn] at hc
      rcases ih (n / 10) _ c hc with hc2 | hc2
      · rcases List.mem_cons.mp hc2 with hc3 | hc3
        · exact Or.inr ⟨n % 10, Nat.mod_lt _ (by omega), hc3⟩
        · exact Or.inl hc3
      · exact Or.inr hc2

/-- Two-digit zero-padded renderings never contain a comma. -/
theorem comma_not_mem_pad2 (x : Nat) : (',' : Char) ∉ pad2 x := by
  intro hc
  rcases List.mem_cons.mp hc with h | h
  · exact digitChar_ne_comma _ (Nat.mod_lt _ (by omega)) h.symm
  · rcases List.mem_cons.mp h with h | h
    · exact digitChar_ne_comma _ (Nat.mod_lt _ (by omega)) h.symm
    · simp at h

/-- The canonical rendering never contains a comma. -/
theorem comma_not_mem_render (y mo da hh mi ss : Nat) :
    (',' : Char) ∉ renderDateTime y mo da hh mi ss := by
  intro hc
  rw [renderDateTime] at hc
  rcases List.mem_append.mp hc with h | h
  · rcases mem_natDigitsAux _ _ _ _ h with h2 | ⟨d, hd, hcd⟩
    · simp at h2
    · exact digitChar_ne_comma d hd hcd.symm
  · rcases List.mem_cons.mp h with h | h
    · exact absurd h (by decide)
    · rcases List.mem_append.mp h with h | h
      · exact comma_not_mem_pad2 mo h
      · rcases List.mem_cons.mp h with h | h
        · exact absurd h (by decide)
        · rcases List.mem_append.mp h with h | h
          · exact comma_not_mem_pad2 da h
          · rcases List.mem_cons.mp h with h | h
            · exact absurd h (by decide)
            · rcases List.mem_append.mp h with h | h
              · exact comma_not_mem_pad2 hh h
              · rcases List.mem_cons.mp h with h | h
                · exact absurd h (by decide)
                · rcases List.mem_append.mp h with h | h
                  · exact comma_not_mem_pad2 mi h
                  · rcases List.mem_cons.mp h with h | h
                    · exact absurd h (by decide)
                    · exact comma_not_mem_pad2 ss h

/-- Membership in a conditional singleton list forces equality. -/
theorem mem_if_singleton {α : Type} {b : Bool} {x a : α}
    (h : a ∈ (if b then [x] else [])) : a = x := by
  split at h
  · simpa using h
  · simp at h

/-- Every alternative a directive offers leaves a suffix of the input as
the remaining input. -/
theorem matchDir_rest_drop (d : Dir) (s : List Char) (p : Nat × List Char)
    (h : p ∈ matchDir d s) : ∃ k, p.2 = List.drop k s := by
  cases d with
  | lit c =>
    cases s with
    | nil => simp [matchDir, matchLit] at h
    | cons c1 r =>
      rw [matchDir, matchLit] at h
      exact ⟨1, by rw [mem_if_singleton h]; rfl⟩
  | ws =>
    simp only [matchDir, matchWs, List.mem_map, List.mem_range] at h
    obtain ⟨i, _, hi⟩ := h
    exact ⟨(List.takeWhile isPyWs s).length - i, by rw [← hi]⟩
  | df =>
    simp only [matchDir, matchMicro, List.mem_map, List.mem_range] at h
    obtain ⟨i, _, hi⟩ := h
    exact ⟨min (List.takeWhile Char.isDigit s).length 6 - i, by rw [← hi]⟩
  | dY =>
    match s with
    | [] => simp [matchDir, matchY] at h
    | [c1] => simp [matchDir, matchY] at h
    | [c1, c2] => simp [matchDir, matchY] at h
    | [c1, c2, c3] => simp [matchDir, matchY] at h
    | c1 :: c2 :: c3 :: c4 :: r =>
      rw [matchDir, matchY] at h
      exact ⟨4, by rw [mem_if_singleton h]; rfl⟩
  | dm =>
    match s with
    | [] => simp [matchDir, match1to12] at h
    | [c1] =>
      rw [matchDir, match1to12] at h
      exact ⟨1, by rw [mem_if_singleton h]; rfl⟩
    | c1 :: c2 :: r =>
      rw [matchDir, match1to12, List.append_assoc] at h
      rcases List.mem_append.mp h with h | h
      · exact ⟨2, by rw [mem_if_singleton h]; rfl⟩
      · rcases List.mem_append.mp h with h | h
        · exact ⟨2, by rw [mem_if_singleton h]; rfl⟩
        · exact ⟨1, by rw [mem_if_singleton h]; rfl⟩
  | dI =>
    match s with
    | [] => simp [matchDir, match1to12] at h
    | [c1] =>
      rw [matchDir, match1to12] at h
      exact ⟨1, by rw [mem_if_singleton h]; rfl⟩
    | c1 :: c2 :: r =>
      rw [matchDir, match1to12, List.append_assoc] at h
      rcases List.mem_append.mp h with h | h
      · exact ⟨2, by rw [mem_if_singleton h]; rfl⟩
      · rcases List.mem_append.mp h with h | h
        · exact ⟨2, by rw [mem_if_singleton h]; rfl⟩
        · exact ⟨1, by rw [mem_if_singleton h]; rfl⟩
  | dd =>
    match s with
    | [] => simp [matchDir, matchDay] at h
    | [c1] =>
      rw [matchDir, matchDay] at h
      exact ⟨1, by rw [mem_if_singleton h]; rfl⟩
    | c1 :: c2 :: r =>
      rw [matchDir, matchDay, List.append_assoc, List.append_assoc] at h
      rcases List.mem_append.mp h with h | h
      · exact ⟨2, by rw [mem_if_singleton h]; rfl⟩
      · rcases List.mem_append.mp h with h | h
        · exact ⟨2, by rw [mem_if_singleton h]; rfl⟩
        · rcases List.mem_append.mp h with h | h
          · exact ⟨2, by rw [mem_if_singleton h]; rfl⟩
          · exact ⟨1, by rw [mem_if_singleton h]; rfl⟩
  | dH =>
    match s with
    | [] => simp [matchDir, matchHour] at h
    | [c1] =>
      rw [matchDir, matchHour] at h
      exact ⟨1, by rw [mem_if_singleton h]; rfl⟩
    | c1 :: c2 :: r =>
      rw [matchDir, matchHour, List.append_assoc] at h
      rcases List.mem_append.mp h with h | h
      · exact ⟨2, by rw [mem_if_singleton h]; rfl⟩
      · rcases List.mem_append.mp h with h | h
        · exact ⟨2, by rw [mem_if_singleton h]; rfl⟩
        · exact ⟨1, by rw [mem_if_singleton h]; rfl⟩
  | dM =>
    match s with
    | [] => simp [matchDir, matchMin] at h
    | [c1] =>
      rw [matchDir, matchMin] at h
      exact ⟨1, by rw [mem_if_singleton h]; rfl⟩
    | c1 :: c2 :: r =>
      rw [matchDir, matchMin] at h
      rcases List.mem_append.mp h with h | h
      · exact ⟨2, by rw [mem_if_singleton h]; rfl⟩
      · exact ⟨1, by rw [mem_if_singleton h]; rfl⟩
  | dS =>
    match s with
    | [] => simp [matchDir, matchSec] at h
    | [c1] =>
      rw [matchDir, matchSec] at h
      exact ⟨1, by rw [mem_if_singleton h]; rfl⟩
    | c1 :: c2 :: r =>
      rw [matchDir, matchSec, List.append_assoc] at h
      rcases List.mem_append.mp h with h | h
      · exact ⟨2, by rw [mem_if_singleton h]; rfl⟩
      · rcases List.mem_append.mp h with h | h
        · exact ⟨2, by rw [mem_if_singleton h]; rfl⟩
        · exact ⟨1, by rw [mem_if_singleton h]; rfl⟩
  | dp =>
    match s with
    | [] => simp [matchDir, matchAmPm] at h
    | [c1] => simp [matchDir, matchAmPm] at h
    | c1 :: c2 :: r =>
      rw [matchDir, matchAmPm] at h
      rcases List.mem_append.mp h with h | h
      · exact ⟨2, by rw [mem_if_singleton h]; rfl⟩
      · exact ⟨2, by rw [mem_if_singleton h]; rfl⟩

/-- A format containing a comma literal never matches a comma-free
input. -/
theorem runParse_none_of_comma (fmt : List Dir) :
    ∀ (s : List Char) (f : TimeFields), Dir.lit ',' ∈ fmt → (',' : Char) ∉ s →
    runParse fmt s f = none := by
  induction fmt with
  | nil =>
    intro s f hin
    simp at hin
  | cons d ds ih =>
    intro s f hin hs
    rw [runParse]
    apply List.findSome?_eq_none_iff.mpr
    intro vr hvr
    rcases List.mem_cons.mp hin with hd | hd
    · exfalso
      rw [← hd] at hvr
      cases s with
      | nil => simp [matchDir, matchLit] at hvr
      | cons c r =>
        rw [matchDir, matchLit] at hvr
        split at hvr
        · next hc =>
          have hceq : c = ',' := beq_iff_eq.mp hc
          subst hceq
          exact hs (List.mem_cons_self _ _)
        · simp at hvr
    · obtain ⟨k, hk⟩ := matchDir_rest_drop d s vr hvr
      exact ih vr.2 _ hd (fun hc => hs (List.drop_subset k s (hk ▸ hc)))

/-- Parsing step: a literal consumes its character. -/
theorem step_lit (c : Char) (rest : List Char) (ds : List Dir) (acc res : TimeFields)
    (hc : runParse ds rest acc = some res) :
    runParse (Dir.lit c :: ds) (c :: rest) acc = some res := by
  rw [runParse]
  simp [matchDir, matchLit, List.findSome?_cons, applyDir, hc]

/-- Parsing step: `%Y` consumes four zero-padded digits and records the
year. -/
theorem step_dY (y : Nat) (rest : List Char) (ds : List Dir) (acc res : TimeFields)
    (h2 : y ≤ 9999)
    (hc : runParse ds rest { acc with year := y } = some res) :
    runParse (Dir.dY :: ds) (pad4 y ++ rest) acc = some res := by
  have k1 : y / 1000 % 10 < 10 := Nat.mod_lt _ (by omega)
  have k2 : y / 100 % 10 < 10 := Nat.mod_lt _ (by omega)
  have k3 : y / 10 % 10 < 10 := Nat.mod_lt _ (by omega)
  have k4 : y % 10 < 10 := Nat.mod_lt _ (by omega)
  rw [runParse]
  simp only [matchDir, pad4, List.cons_append, List.nil_append, matchY,
    digitChar_isDigit _ k1, digitChar_isDigit _ k2, digitChar_isDigit _ k3,
    digitChar_isDigit _ k4, Bool.and_self, Bool.and_true, if_true,
    digitVal_digitChar _ k1, digitVal_digitChar _ k2, digitVal_digitChar _ k3,
    digitVal_digitChar _ k4]
  have hval : ((y / 1000 % 10 * 10 + y / 100 % 10) * 10 + y / 10 % 10) * 10 + y % 10 = y := by
    omega
  rw [hval]
  simp [List.findSome?_cons, applyDir, hc]

/-- Parsing step: a whitespace run consumes exactly the one space in front
of a zero-padded number. -/
theorem step_ws_pad2 (x : Nat) (rest : List Char) (ds : List Dir) (acc res : TimeFields)
    (hc : runParse ds (pad2 x ++ rest) acc = some res) :
    runParse (Dir.ws :: ds) (' ' :: (pad2 x ++ rest)) acc = some res := by
  have hnws : isPyWs (Nat.digitChar (x / 10 % 10)) = false :=
    digitChar_not_ws _ (Nat.mod_lt _ (by omega))
  have hsp : isPyWs ' ' = true := by decide
  have hc2 : runParse ds
      (Nat.digitChar (x / 10 % 10) :: Nat.digitChar (x % 10) :: rest) acc = some res := by
    simpa [pad2] using hc
  rw [runParse]
  simp only [matchDir, matchWs, pad2, List.cons_append, List.nil_append,
    List.takeWhile_cons, hsp, hnws, if_true, if_false]
  simp [List.range_succ, List.findSome?_cons, applyDir, hc2]

/-- Parsing step: `%m` consumes a zero-padded month and records it. -/
theorem step_dm (mo : Nat) (rest : List Char) (ds : List Dir) (acc res : TimeFields)
    (h1 : 1 ≤ mo) (h2 : mo ≤ 12)
    (hc : runParse ds rest { acc with month := mo } = some res) :
    runParse (Dir.dm :: ds) (pad2 mo ++ rest) acc = some res := by
  rw [runParse]
  simp only [matchDir, pad2, List.cons_append, List.nil_append]
  rcases Nat.lt_or_ge mo 10 with hlt | hge
  · have e1 : mo / 10 % 10 = 0 := by omega
    have e2 : mo % 10 = mo := by omega
    rw [e1, e2, show Nat.digitChar 0 = '0' from rfl]
    have f1 : (('0' : Char) == '1') = false := by decide
    have f2 : (('0' : Char) == '0') = true := by decide
    have f3 : ('1' ≤ Nat.digitChar mo && Nat.digitChar mo ≤ '9') = true :=
      digitChar_between_1_9 mo h1 (by omega)
    have f4 : decide (('1' : Char) ≤ '0') = false := by decide
    have f5 : digitVal (Nat.digitChar mo) = mo := digitVal_digitChar mo (by omega)
    simp only [match1to12, f1, f2, f3, f4, f5, Bool.false_and, Bool.true_and,
      Bool.and_true, if_true, if_false, List.nil_append]
    simp [List.findSome?_cons, applyDir, hc]
  · have e1 : mo / 10 % 10 = 1 := by omega
    rw [e1, show Nat.digitChar 1 = '1' from rfl]
    have f1 : (('1' : Char) == '1') = true := by decide
    have f2 : ('0' ≤ Nat.digitChar (mo % 10) && Nat.digitChar (mo % 10) ≤ '2') = true :=
      digitChar_between_0_2 _ (by omega)
    have f5 : digitVal (Nat.digitChar (mo % 10)) = mo % 10 :=
      digitVal_digitChar _ (Nat.mod_lt _ (by omega))
    have hval : 10 + mo % 10 = mo := by omega
    simp only [match1to12, f1, f2, f5, Bool.true_and, if_true, hval, List.cons_append]
    simp [List.findSome?_cons, applyDir, hc]

/-- Parsing step: `%d` consumes a zero-padded day and records it. -/
theorem step_dd (da : Nat) (rest : List Char) (ds : List Dir) (acc res : TimeFields)
    (h1 : 1 ≤ da) (h2 : da ≤ 31)
    (hc : runParse ds rest { acc with day := da } = some res) :
    runParse (Dir.dd :: ds) (pad2 da ++ rest) acc = some res := by
  rw [runParse]
  simp only [matchDir, pad2, List.cons_append, List.nil_append]
  rcases Nat.lt_or_ge da 10 with hx | hx
  · have e1 : da / 10 % 10 = 0 := by omega
    have e2 : da % 10 = da := by omega
    rw [e1, e2, show Nat.digitChar 0 = '0' from rfl]
    have f1 : (('0' : Char) == '3') = false := by decide
    have f2 : decide (('1' : Char) ≤ '0') = false := by decide
    have f3 : (('0' : Char) == '0') = true := by decide
    have f4 : ('1' ≤ Nat.digitChar da && Nat.digitChar da ≤ '9') = true :=
      digitChar_between_1_9 da h1 (by omega)
    have f5 : digitVal (Nat.digitChar da) = da := digitVal_digitChar da (by omega)
    simp only [matchDay, f1, f2, f3, f4, f5, Bool.false_and, Bool.true_and,
      Bool.and_true, if_true, if_false, List.nil_append]
    simp [List.findSome?_cons, applyDir, hc]
  · rcases Nat.lt_or_ge da 30 with hy | hy
    · have e1 : da / 10 % 10 = da / 10 := by omega
      rw [e1]
      have hq1 : 1 ≤ da / 10 := by omega
      have hq2 : da / 10 ≤ 2 := by omega
      have f1 : (Nat.digitChar (da / 10) == '3') = false := by
        interval_cases h : da / 10 <;> decide
      have f2 : ('1' ≤ Nat.digitChar (da / 10) && Nat.digitChar (da / 10) ≤ '2') = true := by
        interval_cases h : da / 10 <;> decide
      have f3 : (Nat.digitChar (da % 10)).isDigit = true :=
        digitChar_isDigit _ (Nat.mod_lt _ (by omega))
      have f4 : digitVal (Nat.digitChar (da / 10)) = da / 10 :=
        digitVal_digitChar _ (by omega)
      have f5 : digitVal (Nat.digitChar (da % 10)) = da % 10 :=
        digitVal_digitChar _ (Nat.mod_lt _ (by omega))
      have hval : da / 10 * 10 + da % 10 = da := by omega
      simp only [matchDay, f1, f2, f3, f4, f5, Bool.false_and, Bool.true_and,
        Bool.and_true, if_true, if_false, List.nil_append, hval, List.cons_append]
      simp [List.findSome?_cons, applyDir, hc]
    · have e1 : da / 10 % 10 = 3 := by omega
      rw [e1, show Nat.digitChar 3 = '3' from rfl]
      have f1 : (('3' : Char) == '3') = true := by decide
      have f2 : ('0' ≤ Nat.digitChar (da % 10) && Nat.digitChar (da % 10) ≤ '1') = true :=
        digitChar_between_0_1 _ (by omega)
      have f5 : digitVal (Nat.digitChar (da % 10)) = da % 10 :=
        digitVal_digitChar _ (Nat.mod_lt _ (by omega))
      have hval : 30 + da % 10 = da := by omega
      simp only [matchDay, f1, f2, f5, Bool.true_and, if_true, hval, List.cons_append]
      simp [List.findSome?_cons, applyDir, hc]

/-- Parsing step: `%H` consumes a zero-padded hour and records it. -/
theorem step_dH (hh : Nat) (rest : List Char) (ds : List Dir) (acc res : TimeFields)
    (h2 : hh ≤ 23)
    (hc : runParse ds rest { acc with hour := hh } = some res) :
    runParse (Dir.dH :: ds) (pad2 hh ++ rest) acc = some res := by
  rw [runParse]
  simp only [matchDir, pad2, List.cons_append, List.nil_append]
  rcases Nat.lt_or_ge hh 20 with hx | hx
  · have e1 : hh / 10 % 10 = hh / 10 := by omega
    rw [e1]
    have f1 : (Nat.digitChar (hh / 10) == '2') = false :=
      digitChar_beq_2 _ (by omega)
    have f2 : ('0' ≤ Nat.digitChar (hh / 10) && Nat.digitChar (hh / 10) ≤ '1') = true :=
      digitChar_between_0_1 _ (by omega)
    have f3 : (Nat.digitChar (hh % 10)).isDigit = true :=
      digitChar_isDigit _ (Nat.mod_lt _ (by omega))
    have f4 : digitVal (Nat.digitChar (hh / 10)) = hh / 10 :=
      digitVal_digitChar _ (by omega)
    have f5 : digitVal (Nat.digitChar (hh % 10)) = hh % 10 :=
      digitVal_digitChar _ (Nat.mod_lt _ (by omega))
    have hval : hh / 10 * 10 + hh % 10 = hh := by omega
    simp only [matchHour, f1, f2, f3, f4, f5, Bool.false_and, Bool.true_and,
      Bool.and_true, if_true, if_false, List.nil_append, hval, List.cons_append]
    simp [List.findSome?_cons, applyDir, hc]
  · have e1 : hh / 10 % 10 = 2 := by omega
    rw [e1, show Nat.digitChar 2 = '2' from rfl]
    have f1 : (('2' : Char) == '2') = true := by decide
    have f2 : ('0' ≤ Nat.digitChar (hh % 10) && Nat.digitChar (hh % 10) ≤ '3') = true :=
      digitChar_between_0_3 _ (by omega)
    have f5 : digitVal (Nat.digitChar (hh % 10)) = hh % 10 :=
      digitVal_digitChar _ (Nat.mod_lt _ (by omega))
    have hval : 20 + hh % 10 = hh := by omega
    simp only [matchHour, f1, f2, f5, Bool.true_and, if_true, hval, List.cons_append]
    simp [List.findSome?_cons, applyDir, hc]

/-- Parsing step: `%M` consumes a zero-padded minute and records it. -/
theorem step_dM (mi : Nat) (rest : List Char) (ds : List Dir) (acc res : TimeFields)
    (h2 : mi ≤ 59)
    (hc : runParse ds rest { acc with minute := mi } = some res) :
    runParse (Dir.dM :: ds) (pad2 mi ++ rest) acc = some res := by
  rw [runParse]
  simp only [matchDir, pad2, List.cons_append, List.nil_append]
  have e1 : mi / 10 % 10 = mi / 10 := by omega
  rw [e1]
  have f2 : ('0' ≤ Nat.digitChar (mi / 10) && Nat.digitChar (mi / 10) ≤ '5') = true :=
    digitChar_between_0_5 _ (by omega)
  have f3 : (Nat.digitChar (mi % 10)).isDigit = true :=
    digitChar_isDigit _ (Nat.mod_lt _ (by omega))
  have f4 : digitVal (Nat.digitChar (mi / 10)) = mi / 10 :=
    digitVal_digitChar _ (by omega)
  have f5 : digitVal (Nat.digitChar (mi % 10)) = mi % 10 :=
    digitVal_digitChar _ (Nat.mod_lt _ (by omega))
  have hval : mi / 10 * 10 + mi % 10 = mi := by omega
  simp only [matchMin, f2, f3, f4, f5, Bool.true_and, Bool.and_true, if_true,
    hval, List.cons_append]
  simp [List.findSome?_cons, applyDir, hc]

/-- Parsing step: `%S` consumes a zero-padded second and records it. -/
theorem step_dS (ss : Nat) (rest : List Char) (ds : List Dir) (acc res : TimeFields)
    (h2 : ss ≤ 59)
    (hc : runParse ds rest { acc with second := ss } = some res) :
    runParse (Dir.dS :: ds) (pad2 ss ++ rest) acc = some res := by
  rw [runParse]
  simp only [matchDir, pad2, List.cons_append, List.nil_append]
  have e1 : ss / 10 % 10 = ss / 10 := by omega
  rw [e1]
  have f1 : (Nat.digitChar (ss / 10) == '6') = false :=
    digitChar_beq_6 _ (by omega)
  have f2 : ('0' ≤ Nat.digitChar (ss / 10) && Nat.digitChar (ss / 10) ≤ '5') = true :=
    digitChar_between_0_5 _ (by omega)
  have f3 : (Nat.digitChar (ss % 10)).isDigit = true :=
    digitChar_isDigit _ (Nat.mod_lt _ (by omega))
  have f4 : digitVal (Nat.digitChar (ss / 10)) = ss / 10 :=
    digitVal_digitChar _ (by omega)
  have f5 : digitVal (Nat.digitChar (ss % 10)) = ss % 10 :=
    digitVal_digitChar _ (Nat.mod_lt _ (by omega))
  have hval : ss / 10 * 10 + ss % 10 = ss := by omega
  simp only [matchSec, f1, f2, f3, f4, f5, Bool.false_and, Bool.true_and,
    Bool.and_true, if_true, if_false, List.nil_append, hval, List.cons_append]
  simp [List.findSome?_cons, applyDir, hc]

/-- The ISO format re-parses the canonical rendering of a valid datetime
with a four-digit year into exactly its fields. -/
theorem runParse_iso_render (y mo da hh mi ss : Nat)
    (hy1 : 1000 ≤ y) (hy2 : y ≤ 9999) (hmo1 : 1 ≤ mo) (hmo2 : mo ≤ 12)
    (hda1 : 1 ≤ da) (hda2 : da ≤ 31) (hhh : hh ≤ 23) (hmi : mi ≤ 59) (hss : ss ≤ 59) :
    runParse timeFormat9 (renderDateTime y mo da hh mi ss) {}
      = some { year := y, month := mo, day := da, hour := hh, minute := mi,
               second := ss } := by
  rw [timeFormat9, renderDateTime, natDigits_eq_pad4 y hy1 hy2]
  apply step_dY y _ _ _ _ hy2
  apply step_lit
  apply step_dm mo _ _ _ _ hmo1 hmo2
  apply step_lit
  apply step_dd da _ _ _ _ hda1 hda2
  apply step_ws_pad2
  apply step_dH hh _ _ _ _ hhh
  apply step_lit
  apply step_dM mi _ _ _ _ hmi
  apply step_lit
  rw [show pad2 ss = pad2 ss ++ ([] : List Char) from (List.append_nil _).symm]
  apply step_dS ss _ _ _ _ hss
  rfl

/-- Months never have more than 31 days. -/
theorem daysInMonth_le (y m : Nat) : daysInMonth y m ≤ 31 := by
  unfold daysInMonth
  split_ifs <;> omega

/-- `tryFormat` on the ISO format returns the rendering unchanged for a
valid datetime with a four-digit year. -/
theorem tryFormat_iso_render (y mo da hh mi ss : Nat)
    (hy1 : 1000 ≤ y) (hval : validDateTime y mo da hh mi ss = true) :
    tryFormat timeFormat9 (renderDateTime y mo da hh mi ss)
      = some (renderDateTime y mo da hh mi ss) := by
  have hb : (1 ≤ y ∧ y ≤ 9999 ∧ 1 ≤ mo ∧ mo ≤ 12 ∧ 1 ≤ da ∧ da ≤ daysInMonth y mo ∧
      hh ≤ 23 ∧ mi ≤ 59) ∧ ss ≤ 59 := by
    simpa [validDateTime, Bool.and_eq_true, decide_eq_true_eq, and_assoc] using hval
  obtain ⟨⟨b1, b2, b3, b4, b5, b6, b7, b8⟩, b9⟩ := hb
  have hda31 : da ≤ 31 := le_trans b6 (daysInMonth_le y mo)
  rw [tryFormat, runParse_iso_render y mo da hh mi ss hy1 b2 b3 b4 b5 hda31 b7 b8 b9]
  simp [mergedHour, hval]

/-- The whole format list maps the canonical rendering of a valid
datetime with a four-digit year to itself: the eight comma-bearing
formats fail, and the ISO format reproduces the rendering. -/
theorem formatFirst_render (y mo da hh mi ss : Nat)
    (hy1 : 1000 ≤ y) (hval : validDateTime y mo da hh mi ss = true) :
    formatFirst timeFormats (renderDateTime y mo da hh mi ss)
      = some (renderDateTime y mo da hh mi ss) := by
  have hnc := comma_not_mem_render y mo da hh mi ss
  have hfail : ∀ fmt : List Dir, Dir.lit ',' ∈ fmt →
      tryFormat fmt (renderDateTime y mo da hh mi ss) = none := by
    intro fmt hf
    rw [tryFormat, runParse_none_of_comma fmt _ {} hf hnc]
  simp only [timeFormats, formatFirst,
    hfail timeFormat1 (by decide), hfail timeFormat2 (by decide),
    hfail timeFormat3 (by decide), hfail timeFormat4 (by decide),
    hfail timeFormat5 (by decide), hfail timeFormat6 (by decide),
    hfail timeFormat7 (by decide), hfail timeFormat8 (by decide),
    tryFormat_iso_render y mo da hh mi ss hy1 hval]

/-- A successful `tryFormat` output is the canonical rendering of a
validated field set. -/
theorem tryFormat_some_shape (fmt : List Dir) (s out : List Char)
    (h : tryFormat fmt s = some out) :
    ∃ f : TimeFields,
      validDateTime f.year f.month f.day (mergedHour f) f.minute f.second = true ∧
      out = renderDateTime f.year f.month f.day (mergedHour f) f.minute f.second := by
  rw [tryFormat] at h
  cases hr : runParse fmt s {} with
  | none => rw [hr] at h; exact absurd h (by simp)
  | some f =>
    rw [hr] at h
    change (if validDateTime f.year f.month f.day (mergedHour f) f.minute f.second then
        some (renderDateTime f.year f.month f.day (mergedHour f) f.minute f.second)
      else none) = some out at h
    split at h
    · rename_i hv
      exact ⟨f, hv, (Option.some.inj h).symm⟩
    · exact absurd h (by simp)

/-- C9 counterexample: the four-digit-shaped canonical string
`0999-01-01 00:00:00` parses, but the Time Parser returns the unpadded
`999-01-01 00:00:00` — not the identical string — and that output itself
no longer parses, so round-trip identity fails on canonical outputs with
years below 1000. -/
theorem C9_roundtrip_cx :
    format_message_time "0999-01-01 00:00:00" = some "999-01-01 00:00:00" ∧
    some ("999-01-01 00:00:00" : String) ≠ some ("0999-01-01 00:00:00" : String) ∧
    format_message_time "999-01-01 00:00:00" = none := by decide

/-- C9 amended: round-trip identity holds for every canonical output of
the full 19-character `YYYY-MM-DD HH:MM:SS` shape (four-digit year):
feeding such an output back through the Time Parser succeeds and returns
the identical string. -/
theorem C9_roundtrip_amended (t v : String)
    (h : format_message_time t = some v) (hlen : v.length = 19) :
    format_message_time v = some v := by
  rw [format_message_time] at h
  cases hff : formatFirst timeFormats t.data with
  | none => rw [hff] at h; simp at h
  | some out =>
    rw [hff] at h
    simp only [Option.map_some'] at h
    have hveq : String.mk out = v := Option.some.inj h
    have hfs := formatFirst_eq_findSome timeFormats t.data
    rw [hff] at hfs
    obtain ⟨fmt, hmem, htf⟩ := List.exists_of_findSome?_eq_some hfs.symm
    obtain ⟨f, hval, hout⟩ := tryFormat_some_shape fmt t.data out htf
    have hlen2 : out.length = 19 := by
      rw [← hveq] at hlen
      exact hlen
    have hrl : out.length = (natDigits f.year).length + 15 := by
      rw [hout]
      simp [renderDateTime, pad2, List.length_append]
    have hy1 : 1000 ≤ f.year := by
      by_contra hy
      have := natDigits_length_le3 f.year (by omega)
      omega
    rw [← hveq, format_message_time]
    have hdata : (String.mk out).data = out := rfl
    rw [hdata, hout,
      formatFirst_render f.year f.month f.day (mergedHour f) f.minute f.second hy1 hval]
    rfl

/-- C9 amended witness at concrete inputs. -/
theorem C9_roundtrip_amended_witness :
    format_message_time "2023-04-28 09:49:00" = some "2023-04-28 09:49:00" :=
  C9_roundtrip_amended "9:49 AM, 4/28/2023" "2023-04-28 09:49:00" (by decide) (by decide)

end WABot
